import Mathlib

/-!
# Verification of the Linear webhook bridge (cruzbot-gateway)

Shallow embedding of `src/extensions/linear-webhook/index.ts`:
the trigger ledger (`writeTrigger` / `readTriggerLog`), the signature
verifier (`verifySignature`), the story-path extractor
(`extractStoryFilePath`), and the webhook / poll ingestion paths of
`register`.  Machine-level concerns (file system, HTTP) are modelled by
explicit state passing: the ledger file is represented by its list of
lines, external primitives (HMAC, JSON parsing, session spawning) are
parameters of the functions that call them.
-/

/-- Trigger record status: the `status` field of `TriggerEntry`
(`"pending" | "spawned" | "skipped"`). -/
inductive Status where
  | pending
  | spawned
  | skipped
deriving DecidableEq, Repr

/-- `statusActive st` embeds the test
`e.status === "pending" || e.status === "spawned"` used by the dedup
check in `writeTrigger`. -/
def statusActive : Status → Bool
  | Status.pending => true
  | Status.spawned => true
  | Status.skipped => false

/-- The `TriggerEntry` record type of the ledger
(`src/extensions/linear-webhook/index.ts`, lines 32-40). -/
structure TriggerEntry where
  issueId : String
  issueTitle : String
  stateId : String
  triggeredAt : String
  source : String
  status : Status
  storyFilePath : Option String
deriving DecidableEq, Repr

/-- `Omit<TriggerEntry, "status">`: the argument shape of `writeTrigger`. -/
structure TriggerInput where
  issueId : String
  issueTitle : String
  stateId : String
  triggeredAt : String
  source : String
  storyFilePath : Option String
deriving DecidableEq, Repr

/-- `{ ...entry, status }` : complete a `TriggerInput` with a status. -/
def TriggerInput.withStatus (i : TriggerInput) (st : Status) : TriggerEntry :=
  ⟨i.issueId, i.issueTitle, i.stateId, i.triggeredAt, i.source, st, i.storyFilePath⟩

/-- `writeTrigger` (lines 97-115): reads the ledger, returns `false`
(deduped) if some record with the same `issueId` is `pending` or
`spawned`, otherwise appends the entry with status `pending` and
returns `true`.  The ledger file is modelled by its parsed records;
the result is the read/dedup flag together with the new ledger. -/
def writeTrigger (led : List TriggerEntry) (entry : TriggerInput) :
    Bool × List TriggerEntry :=
  let alreadyExists :=
    led.any (fun e => e.issueId == entry.issueId && statusActive e.status)
  if alreadyExists then (false, led)
  else (true, led ++ [entry.withStatus Status.pending])

/-- Records for `id` that are `pending` or `spawned`. -/
def activeFor (id : String) (e : TriggerEntry) : Bool :=
  e.issueId == id && statusActive e.status

/-- Number of `pending`/`spawned` records for a given `workItemId`. -/
def activeCount (led : List TriggerEntry) (id : String) : Nat :=
  (led.filter (activeFor id)).length

/-- Run a finite sequence of admission attempts starting from the empty
ledger, keeping only the resulting ledger state. -/
def runWrites (inputs : List TriggerInput) : List TriggerEntry :=
  inputs.foldl (fun led i => (writeTrigger led i).2) []

lemma activeCount_nil (id : String) : activeCount [] id = 0 := rfl

lemma activeCount_append (l₁ l₂ : List TriggerEntry) (id : String) :
    activeCount (l₁ ++ l₂) id = activeCount l₁ id + activeCount l₂ id := by
  simp [activeCount, List.filter_append]

lemma alreadyExists_eq_false_iff (led : List TriggerEntry) (id : String) :
    led.any (fun e => e.issueId == id && statusActive e.status) = false ↔
      activeCount led id = 0 := by
  simp [activeCount, List.length_eq_zero, List.filter_eq_nil_iff, activeFor,
    List.any_eq_true]

/-- One admission step preserves the at-most-one-active invariant. -/
lemma writeTrigger_preserves_invariant (led : List TriggerEntry)
    (i : TriggerInput) (id : String) (h : activeCount led id ≤ 1) :
    activeCount (writeTrigger led i).2 id ≤ 1 := by
  unfold writeTrigger
  by_cases hex :
      led.any (fun e => e.issueId == i.issueId && statusActive e.status) = true
  · simp [hex, h]
  · have hex' :
        led.any (fun e => e.issueId == i.issueId && statusActive e.status)
          = false := by
      simpa using hex
    simp only [hex', if_neg, Bool.false_eq_true, not_false_iff, if_false]
    rw [activeCount_append]
    by_cases hid : i.issueId = id
    · have h0 : activeCount led id = 0 := by
        rw [← hid]
        exact (alreadyExists_eq_false_iff led i.issueId).mp hex'
      have : activeCount [i.withStatus Status.pending] id ≤ 1 := by
        simp [activeCount, List.filter]
        split <;> simp
      omega
    · have hbeq : (i.issueId == id) = false := by
        simp [hid]
      have : activeCount [i.withStatus Status.pending] id = 0 := by
        simp [activeCount, activeFor, TriggerInput.withStatus, List.filter_cons,
          hbeq]
      omega

lemma foldl_writes_invariant (inputs : List TriggerInput)
    (led : List TriggerEntry) (id : String) (h : activeCount led id ≤ 1) :
    activeCount (inputs.foldl (fun l i => (writeTrigger l i).2) led) id ≤ 1 := by
  induction inputs generalizing led with
  | nil => simpa using h
  | cons a rest ih =>
      simp only [List.foldl_cons]
      exact ih _ (writeTrigger_preserves_invariant led a id h)

/-- C1: starting from an empty ledger, any finite sequence of admission
attempts (webhook or poll, any order, repetitions allowed) leaves at most
one `pending`/`spawned` record per `workItemId`; and while such an active
record exists, a further admission attempt for that `workItemId` returns
`false` and appends nothing. -/
theorem writeTrigger_dedup_invariant (inputs : List TriggerInput) (id : String) :
    activeCount (runWrites inputs) id ≤ 1 ∧
      ∀ i : TriggerInput, i.issueId = id →
        1 ≤ activeCount (runWrites inputs) id →
        writeTrigger (runWrites inputs) i = (false, runWrites inputs) := by
  constructor
  · exact foldl_writes_invariant inputs [] id (by simp [activeCount_nil])
  · intro i hi hpos
    unfold writeTrigger
    have hex :
        (runWrites inputs).any
          (fun e => e.issueId == i.issueId && statusActive e.status) = true := by
      by_contra hco
      have hf :
          (runWrites inputs).any
            (fun e => e.issueId == i.issueId && statusActive e.status)
            = false := by
        simpa using hco
      have h0 := (alreadyExists_eq_false_iff (runWrites inputs) i.issueId).mp hf
      rw [hi] at h0
      omega
    simp [hex]

/-- Sample admission input used by concrete witnesses. -/
def sampleInput : TriggerInput :=
  ⟨"CRU-123", "Test issue", "99a123f5-1bda-48b0-b0b2-38246e2a50d2",
    "2026-01-01T00:00:00.000Z", "webhook", none⟩

/-- Witness for C1: after admitting `CRU-123` once, the invariant holds and
a second admission attempt is refused and appends nothing. -/
theorem writeTrigger_dedup_invariant_witness :
    activeCount (runWrites [sampleInput]) "CRU-123" ≤ 1 ∧
      writeTrigger (runWrites [sampleInput]) sampleInput
        = (false, runWrites [sampleInput]) := by
  refine ⟨(writeTrigger_dedup_invariant [sampleInput] "CRU-123").1, ?_⟩
  exact (writeTrigger_dedup_invariant [sampleInput] "CRU-123").2 sampleInput
    rfl (by decide)

/-- C6: when every existing record for the `workItemId` is `skipped`
(any number of them), the next admission succeeds: it returns `true` and
appends a fresh `pending` record. -/
theorem writeTrigger_rearm (led : List TriggerEntry) (i : TriggerInput)
    (h : ∀ e ∈ led, e.issueId = i.issueId → e.status = Status.skipped) :
    writeTrigger led i = (true, led ++ [i.withStatus Status.pending]) := by
  unfold writeTrigger
  have hex :
      led.any (fun e => e.issueId == i.issueId && statusActive e.status)
        = false := by
    simp only [List.any_eq_false]
    intro e he
    by_cases hid : e.issueId = i.issueId
    · have := h e he hid
      simp [hid, this, statusActive]
    · simp [hid]
  simp [hex]

/-- A `skipped` record for `CRU-123`, used by concrete witnesses. -/
def skippedEntry : TriggerEntry :=
  ⟨"CRU-123", "Test issue", "99a123f5-1bda-48b0-b0b2-38246e2a50d2",
    "2026-01-01T00:00:00.000Z", "webhook", Status.skipped, none⟩

/-- Witness for C6: one `skipped` record for `CRU-123`, re-admission of
`CRU-123` succeeds and appends a new `pending` record. -/
theorem writeTrigger_rearm_witness :
    writeTrigger [skippedEntry] sampleInput
      = (true, [skippedEntry] ++ [sampleInput.withStatus Status.pending]) :=
  writeTrigger_rearm [skippedEntry] sampleInput (by decide)

/-- `readTriggerLog` (lines 77-81).  The file is modelled by its list of
non-blank lines, each line abstracted to the outcome of `JSON.parse` on
it: `some e` for a line parsing to a record, `none` for a malformed line
(on which `JSON.parse` throws).  The source maps `JSON.parse` over the
lines with no error handling, so a single malformed line makes the whole
read throw — modelled by the `none` result. -/
def readTriggerLog : List (Option TriggerEntry) → Option (List TriggerEntry)
  | [] => some []
  | none :: _ => none
  | some e :: rest => (readTriggerLog rest).map (fun es => e :: es)

/-- Valid ledger records used by concrete counterexamples and witnesses. -/
def okEntry1 : TriggerEntry :=
  ⟨"CRU-1", "First", "abc", "2026-01-01T00:00:00.000Z", "webhook",
    Status.pending, none⟩

/-- A second valid ledger record. -/
def okEntry2 : TriggerEntry :=
  ⟨"CRU-2", "Second", "abc", "2026-01-01T00:00:00.000Z", "poll",
    Status.spawned, none⟩

/-- Counterexample to C2: a ledger file with one corrupt line between two
valid lines does not yield the two valid records — the read fails
(`JSON.parse` throws on the corrupt line and nothing is skipped). -/
theorem readTriggerLog_malformed_counterexample :
    readTriggerLog [some okEntry1, none, some okEntry2] = none ∧
      readTriggerLog [some okEntry1, none, some okEntry2]
        ≠ some [okEntry1, okEntry2] := by
  constructor
  · rfl
  · decide

/-- C2 (amended): loading a ledger whose lines are all valid returns
exactly the parsed records in file order; but any malformed line makes
the whole read fail with a parse error (no records are returned), the
malformed line is not skipped. -/
theorem readTriggerLog_amended (es : List TriggerEntry) :
    readTriggerLog (es.map some) = some es ∧
      ∀ pre post : List (Option TriggerEntry),
        readTriggerLog (pre ++ none :: post) = none := by
  constructor
  · induction es with
    | nil => rfl
    | cons e rest ih => simp [readTriggerLog, ih]
  · intro pre post
    induction pre with
    | nil => rfl
    | cons l rest ih =>
        cases l with
        | none => rfl
        | some e => simp [readTriggerLog, ih]

/-- `verifySignature` (lines 59-63).  The HMAC-SHA256 hex digest
primitive (`createHmac("sha256", secret).update(body).digest("hex")`) is
an external crypto call, passed in as the function parameter `hmacHex`
(secret first, then body).  The source returns `false` when the secret
or the claimed signature is the empty string (the only falsy strings),
otherwise compares the computed digest with the claimed signature by
exact string equality.  The function is pure: it only reads its
arguments and returns a boolean. -/
def verifySignature (hmacHex : String → String → String)
    (body signature secret : String) : Bool :=
  if secret = "" || signature = "" then false
  else hmacHex secret body == signature

/-- C5: verification succeeds iff the secret is non-empty, the claimed
signature is non-empty, and the signature equals the HMAC-SHA256 hex
digest of the body under the secret byte for byte; empty secret, empty
signature, or a digest mismatch (e.g. a tampered body) all yield
`false`, never an error. -/
theorem verifySignature_spec (hmacHex : String → String → String)
    (body signature secret : String) :
    verifySignature hmacHex body signature secret = true ↔
      secret ≠ "" ∧ signature ≠ "" ∧ signature = hmacHex secret body := by
  unfold verifySignature
  by_cases hs : secret = ""
  · simp [hs]
  · by_cases hg : signature = ""
    · simp [hg]
    · simp [hs, hg]
      exact eq_comm

/-- The double-quote character, written by code point to keep character
literals simple. -/
def quoteChar : Char := Char.ofNat 34

/-- The single-quote character (code point 39). -/
def aposChar : Char := Char.ofNat 39

/-- JavaScript regex `\s`: the whitespace class matched by the story-path
pattern's negated character class. -/
def isJsWhitespace (c : Char) : Bool :=
  c.toNat == 9 || c.toNat == 10 || c.toNat == 11 || c.toNat == 12 ||
  c.toNat == 13 || c.toNat == 32 || c.toNat == 160 || c.toNat == 5760 ||
  (Nat.ble 8192 c.toNat && Nat.ble c.toNat 8202) ||
  c.toNat == 8232 || c.toNat == 8233 || c.toNat == 8239 ||
  c.toNat == 8287 || c.toNat == 12288 || c.toNat == 65279

/-- Characters excluded by the class `[^\s"'\)]` of the story-path
pattern: whitespace, double quote, single quote, closing parenthesis. -/
def isBreakChar (c : Char) : Bool :=
  isJsWhitespace c || c == quoteChar || c == aposChar || c == ')'

/-- Tail of the literal lead-in `_bmad-output/stories/`. -/
def storiesTail : List Char :=
  ['b', 'm', 'a', 'd', '-', 'o', 'u', 't', 'p', 'u', 't', '/',
   's', 't', 'o', 'r', 'i', 'e', 's', '/']

/-- The literal lead-in `_bmad-output/stories/` of the story-path
pattern. -/
def storiesLit : List Char := '_' :: storiesTail

/-- `leadsWith p l` : `p` is an initial segment of `l`. -/
def leadsWith : List Char → List Char → Bool
  | [], _ => true
  | _ :: _, [] => false
  | p :: ps, c :: cs => p == c && leadsWith ps cs

/-- Maximal run of non-excluded characters: the furthest the `+` of the
pattern can reach from a given position. -/
def takeRun (l : List Char) : List Char :=
  l.takeWhile (fun c => !isBreakChar c)

/-- The literal trailer `.md` of the story-path pattern. -/
def mdSfx : List Char := ['.', 'm', 'd']

/-- Scanning the reversed run from the front — that is, the run from the
back — find the longest tail that starts with `dm.` (reversed `.md`) and
keeps at least one character for the `+`.  This is the backtracking of
the greedy `+`: the longest prefix of the run ending in `.md` with a
non-empty `+` part wins. -/
def findMdTail : List Char → Option (List Char)
  | x1 :: x2 :: x3 :: x4 :: rest =>
    if x1 == 'd' && x2 == 'm' && x3 == '.' then
      some (x1 :: x2 :: x3 :: x4 :: rest)
    else findMdTail (x2 :: x3 :: x4 :: rest)
  | _ => none

/-- Greedy match of `[^\s"'\)]+\.md` against the run. -/
def greedyMd (run : List Char) : Option (List Char) :=
  (findMdTail run.reverse).map List.reverse

/-- Leftmost match of the full pattern
`_bmad-output\/stories\/[^\s"'\)]+\.md` in a character list: try every
start position left to right; at a position where the literal lead-in
matches, match the greedy remainder against the run after it, else move
one character right — exactly the JavaScript `String.prototype.match`
search for this pattern. -/
def findMatch : List Char → Option (List Char)
  | [] => none
  | c :: rest =>
    if leadsWith storiesLit (c :: rest) then
      match greedyMd (takeRun ((c :: rest).drop storiesLit.length)) with
      | some m => some (storiesLit ++ m)
      | none => findMatch rest
    else findMatch rest

/-- `extractStoryFilePath` (lines 86-90).  `null`/`undefined` input is
`none`; the source's falsy test `if (!description) return null` also
catches the empty string; otherwise the first regex match is returned,
or `null` when there is none. -/
def extractStoryFilePath : Option String → Option String
  | none => none
  | some s =>
    if s.data = [] then none
    else (findMatch s.data).map (fun l => String.mk l)

/-- `containsSeq pat l` : `pat` occurs as a contiguous subsequence. -/
def containsSeq (pat : List Char) : List Char → Bool
  | [] => leadsWith pat []
  | c :: rest => leadsWith pat (c :: rest) || containsSeq pat rest

/-- `[]` or a list starting with an excluded character: what may follow a
bare path token so that the run ends exactly at the path. -/
def tokenEnd : List Char → Bool
  | [] => true
  | c :: _ => isBreakChar c

lemma findMatch_cons (c : Char) (rest : List Char) :
    findMatch (c :: rest) =
      if leadsWith storiesLit (c :: rest) then
        match greedyMd (takeRun ((c :: rest).drop storiesLit.length)) with
        | some m => some (storiesLit ++ m)
        | none => findMatch rest
      else findMatch rest := rfl

lemma leadsWith_append_self (p t : List Char) :
    leadsWith p (p ++ t) = true := by
  induction p with
  | nil => rfl
  | cons a ps ih => simp [leadsWith, ih]

lemma leadsWith_storiesLit_head {c : Char} {l : List Char}
    (h : leadsWith storiesLit (c :: l) = true) : c = '_' := by
  have h' : ('_' == c && leadsWith storiesTail l) = true := h
  have := (Bool.and_eq_true _ _).mp h'
  exact (beq_iff_eq.mp this.1).symm

lemma findMatch_skip_clean (pre t : List Char)
    (h : ∀ c ∈ pre, ¬ c = '_') :
    findMatch (pre ++ t) = findMatch t := by
  induction pre with
  | nil => rfl
  | cons c ps ih =>
      have hc : ¬ c = '_' := h c (List.mem_cons_self c ps)
      have hlw : leadsWith storiesLit (c :: (ps ++ t)) = false := by
        by_contra hco
        exact hc (leadsWith_storiesLit_head (by simpa using hco))
      have hrest : ∀ c' ∈ ps, ¬ c' = '_' :=
        fun c' hm => h c' (List.mem_cons_of_mem c hm)
      simp only [List.cons_append, findMatch, List.append_eq]
      rw [if_neg (by simp [hlw])]
      exact ih hrest

lemma takeRun_append_end (s rest : List Char)
    (hs : ∀ c ∈ s, isBreakChar c = false) (hrest : tokenEnd rest = true) :
    takeRun (s ++ rest) = s := by
  induction s with
  | nil =>
      cases rest with
      | nil => rfl
      | cons c cs =>
          have : isBreakChar c = true := hrest
          simp [takeRun, List.takeWhile_cons, this]
  | cons a as ih =>
      have ha : isBreakChar a = false := hs a (List.mem_cons_self a as)
      have has : ∀ c ∈ as, isBreakChar c = false :=
        fun c hm => hs c (List.mem_cons_of_mem a hm)
      simp [takeRun, List.takeWhile_cons, ha] at ih ⊢
      exact ih has

lemma greedyMd_ends_md (s : List Char) (hs : s ≠ []) :
    greedyMd (s ++ mdSfx) = some (s ++ mdSfx) := by
  cases hrev : s.reverse with
  | nil => exact absurd (by simpa using hrev) hs
  | cons a s' =>
      have h1 : (s ++ mdSfx).reverse = 'd' :: 'm' :: '.' :: a :: s' := by
        simp [mdSfx, List.reverse_append, hrev]
      have h2 : findMdTail ('d' :: 'm' :: '.' :: a :: s')
          = some ('d' :: 'm' :: '.' :: a :: s') := by
        simp [findMdTail]
      have h3 : ('d' :: 'm' :: '.' :: a :: s').reverse = s ++ mdSfx := by
        have := congrArg List.reverse h1
        simpa using this.symm
      simp [greedyMd, h1, h2, h3]

lemma findMatch_hit (s rest : List Char) (hs : s ≠ [])
    (hsChars : ∀ c ∈ s, isBreakChar c = false)
    (hrest : tokenEnd rest = true) :
    findMatch (storiesLit ++ (s ++ mdSfx ++ rest))
      = some (storiesLit ++ s ++ mdSfx) := by
  have hcons : storiesLit ++ (s ++ mdSfx ++ rest)
      = '_' :: (storiesTail ++ (s ++ mdSfx ++ rest)) := rfl
  rw [hcons]
  have hlw : leadsWith storiesLit
      ('_' :: (storiesTail ++ (s ++ mdSfx ++ rest))) = true := by
    have := leadsWith_append_self storiesLit (s ++ mdSfx ++ rest)
    simpa [storiesLit] using this
  have hdrop : ('_' :: (storiesTail ++ (s ++ mdSfx ++ rest))).drop
      storiesLit.length = s ++ mdSfx ++ rest := by
    have : storiesLit ++ (s ++ mdSfx ++ rest)
        = '_' :: (storiesTail ++ (s ++ mdSfx ++ rest)) := rfl
    rw [← this]
    exact List.drop_left _ _
  have hchars : ∀ c ∈ s ++ mdSfx, isBreakChar c = false := by
    intro c hm
    rcases List.mem_append.mp hm with h | h
    · exact hsChars c h
    · simp only [mdSfx, List.mem_cons, List.not_mem_nil, or_false] at h
      rcases h with rfl | rfl | rfl <;> decide
  have hrun : takeRun (s ++ mdSfx ++ rest) = s ++ mdSfx := by
    have := takeRun_append_end (s ++ mdSfx) rest hchars hrest
    simpa [List.append_assoc] using this
  have hgreedy : greedyMd (s ++ mdSfx) = some (s ++ mdSfx) :=
    greedyMd_ends_md s hs
  rw [findMatch_cons, if_pos hlw, hdrop, hrun, hgreedy]
  simp [List.append_assoc]

lemma findMatch_of_no_occurrence (t : List Char)
    (h : containsSeq storiesLit t = false) : findMatch t = none := by
  induction t with
  | nil => rfl
  | cons c rest ih =>
      have h' := h
      simp only [containsSeq, Bool.or_eq_false_iff] at h'
      simp only [findMatch, h'.1, Bool.false_eq_true, if_false]
      exact ih h'.2

/-- Opening wrapper of a markdown link, `[link](`. -/
def linkOpen : List Char := ['[', 'l', 'i', 'n', 'k', ']', '(']

lemma extract_eq_of_findMatch (L P : List Char) (hL : ¬ L = [])
    (h : findMatch L = some P) :
    extractStoryFilePath (some (String.mk L)) = some (String.mk P) := by
  show (if L = [] then none
        else (findMatch L).map (fun l => String.mk l)) = some (String.mk P)
  rw [if_neg hL, h]
  rfl

lemma extract_none_of_findMatch (L : List Char) (h : findMatch L = none) :
    extractStoryFilePath (some (String.mk L)) = none := by
  show (if L = [] then none
        else (findMatch L).map (fun l => String.mk l)) = none
  rw [h]
  simp

/-- C9: a story path embedded in description text is extracted
identically whether it appears bare (followed by a token boundary),
wrapped in double quotes, or wrapped in markdown link syntax — the first
match in document order wins, since any context before the path free of
the pattern's leading `_` cannot start a match; text with no occurrence
of the path lead-in yields `none`; and `null`/`undefined` (modelled
`none`) and empty input yield `none` without throwing. -/
theorem extractStoryFilePath_spec (pre s post : List Char)
    (hpre : ∀ c ∈ pre, ¬ c = '_')
    (hs : s ≠ [])
    (hsChars : ∀ c ∈ s, isBreakChar c = false)
    (hpost : tokenEnd post = true) :
    (extractStoryFilePath
        (some (String.mk (pre ++ (storiesLit ++ (s ++ mdSfx ++ post)))))
      = some (String.mk (storiesLit ++ s ++ mdSfx))) ∧
    (extractStoryFilePath
        (some (String.mk (pre ++ (quoteChar ::
          (storiesLit ++ (s ++ mdSfx ++ (quoteChar :: post)))))))
      = some (String.mk (storiesLit ++ s ++ mdSfx))) ∧
    (extractStoryFilePath
        (some (String.mk (pre ++ (linkOpen ++
          (storiesLit ++ (s ++ mdSfx ++ (')' :: post)))))))
      = some (String.mk (storiesLit ++ s ++ mdSfx))) ∧
    extractStoryFilePath none = none ∧
    extractStoryFilePath (some (String.mk [])) = none ∧
    (∀ t : List Char, containsSeq storiesLit t = false →
      extractStoryFilePath (some (String.mk t)) = none) := by
  have hbare :
      findMatch (pre ++ (storiesLit ++ (s ++ mdSfx ++ post)))
        = some (storiesLit ++ s ++ mdSfx) := by
    rw [findMatch_skip_clean pre _ hpre]
    exact findMatch_hit s post hs hsChars hpost
  have hquoted :
      findMatch (pre ++ (quoteChar ::
          (storiesLit ++ (s ++ mdSfx ++ (quoteChar :: post)))))
        = some (storiesLit ++ s ++ mdSfx) := by
    have hpre' : ∀ c ∈ pre ++ [quoteChar], ¬ c = '_' := by
      intro c hm
      rcases List.mem_append.mp hm with h | h
      · exact hpre c h
      · simp only [List.mem_singleton] at h
        subst h
        decide
    have hshape : pre ++ (quoteChar ::
          (storiesLit ++ (s ++ mdSfx ++ (quoteChar :: post))))
        = (pre ++ [quoteChar]) ++
          (storiesLit ++ (s ++ mdSfx ++ (quoteChar :: post))) := by
      simp
    rw [hshape, findMatch_skip_clean _ _ hpre']
    exact findMatch_hit s (quoteChar :: post) hs hsChars rfl
  have hlink :
      findMatch (pre ++ (linkOpen ++
          (storiesLit ++ (s ++ mdSfx ++ (')' :: post)))))
        = some (storiesLit ++ s ++ mdSfx) := by
    have hpre' : ∀ c ∈ pre ++ linkOpen, ¬ c = '_' := by
      intro c hm
      rcases List.mem_append.mp hm with h | h
      · exact hpre c h
      · revert h
        simp only [linkOpen, List.mem_cons, List.not_mem_nil, or_false]
        rintro (rfl | rfl | rfl | rfl | rfl | rfl | rfl) <;> decide
    have hshape : pre ++ (linkOpen ++
          (storiesLit ++ (s ++ mdSfx ++ (')' :: post))))
        = (pre ++ linkOpen) ++
          (storiesLit ++ (s ++ mdSfx ++ (')' :: post))) := by
      simp
    rw [hshape, findMatch_skip_clean _ _ hpre']
    exact findMatch_hit s (')' :: post) hs hsChars rfl
  refine ⟨?_, ?_, ?_, rfl, rfl, ?_⟩
  · refine extract_eq_of_findMatch _ _ ?_ hbare
    intro hcontra
    rcases List.append_eq_nil.mp hcontra with ⟨-, h2⟩
    rcases List.append_eq_nil.mp h2 with ⟨h3, -⟩
    exact absurd h3 (by decide)
  · refine extract_eq_of_findMatch _ _ ?_ hquoted
    intro hcontra
    rcases List.append_eq_nil.mp hcontra with ⟨-, h2⟩
    cases h2
  · refine extract_eq_of_findMatch _ _ ?_ hlink
    intro hcontra
    rcases List.append_eq_nil.mp hcontra with ⟨-, h2⟩
    rcases List.append_eq_nil.mp h2 with ⟨h3, -⟩
    exact absurd h3 (by decide)
  · intro t ht
    exact extract_none_of_findMatch t (findMatch_of_no_occurrence t ht)

/-- Witness for C9: concrete instantiation — the path
`_bmad-output/stories/x.md` inside the text `See ` ... ` !` bare, quoted
and markdown-wrapped, each extracting the identical path; plus the
degenerate inputs. -/
theorem extractStoryFilePath_spec_witness :
    (extractStoryFilePath
        (some (String.mk (['S', 'e', 'e', ' '] ++
          (storiesLit ++ (['x'] ++ mdSfx ++ [' ', '!'])))))
      = some (String.mk (storiesLit ++ ['x'] ++ mdSfx))) ∧
    (extractStoryFilePath
        (some (String.mk (['S', 'e', 'e', ' '] ++ (quoteChar ::
          (storiesLit ++ (['x'] ++ mdSfx ++ (quoteChar :: [' ', '!'])))))))
      = some (String.mk (storiesLit ++ ['x'] ++ mdSfx))) ∧
    (extractStoryFilePath
        (some (String.mk (['S', 'e', 'e', ' '] ++ (linkOpen ++
          (storiesLit ++ (['x'] ++ mdSfx ++ (')' :: [' ', '!'])))))))
      = some (String.mk (storiesLit ++ ['x'] ++ mdSfx))) ∧
    extractStoryFilePath none = none ∧
    extractStoryFilePath (some (String.mk [])) = none ∧
    extractStoryFilePath (some (String.mk ['n', 'o'])) = none := by
  have h := extractStoryFilePath_spec ['S', 'e', 'e', ' '] ['x'] [' ', '!']
    (by decide) (by decide) (by decide) (by decide)
  exact ⟨h.1, h.2.1, h.2.2.1, h.2.2.2.1, h.2.2.2.2.1,
    h.2.2.2.2.2 ['n', 'o'] (by decide)⟩

/-- `IN_DEV_STATE_ID` (line 24): the configured "ready for dev" state. -/
def inDevStateId : String := "99a123f5-1bda-48b0-b0b2-38246e2a50d2"

/-- A tracker state reference, `{ id }`, possibly with a missing id. -/
structure StateRef where
  id : Option String
deriving DecidableEq, Repr

/-- The `updatedFrom` object of a push payload; `stateId` may be absent. -/
structure UpdatedFrom where
  stateId : Option String
deriving DecidableEq, Repr

/-- The `data` object of a push payload; every field may be absent
(JSON is dynamic, the source reads each with `?.`). -/
structure IssueData where
  teamId : Option String
  stateId : Option String
  state : Option StateRef
  identifier : Option String
  id : Option String
  title : Option String
  description : Option String
deriving DecidableEq, Repr

/-- A parsed push payload: the fields destructured on line 185; each of
them, and the payload objects themselves, may be absent. -/
structure WebhookPayload where
  type : Option String
  action : Option String
  data : Option IssueData
  updatedFrom : Option UpdatedFrom
deriving DecidableEq, Repr

/-- JavaScript truthiness of a possibly-absent string: `undefined`,
`null` and the empty string are falsy. -/
def truthyStr : Option String → Bool
  | none => false
  | some s => s != ""

/-- `data?.stateId ?? data?.state?.id` (line 194). -/
def newStateIdOf (p : WebhookPayload) : Option String :=
  (p.data.bind IssueData.stateId).orElse
    (fun _ => (p.data.bind IssueData.state).bind StateRef.id)

/-- `data?.identifier ?? data?.id ?? "unknown"` (line 196). -/
def issueIdOf (p : WebhookPayload) : String :=
  ((p.data.bind IssueData.identifier).orElse
    (fun _ => p.data.bind IssueData.id)).getD "unknown"

/-- `data?.title ?? ""` (line 197). -/
def issueTitleOf (p : WebhookPayload) : String :=
  (p.data.bind IssueData.title).getD ""

/-- Plugin configuration after `getConfig`: missing values default to
the empty string (`logEvents` to `true`). -/
structure PluginConfig where
  webhookSecret : String
  teamId : String
  logEvents : Bool
deriving DecidableEq, Repr

/-- The admission filters of the push handler (lines 188-192), evaluated
in order with short-circuit: reject unless `type === "Issue" && action
=== "update"`; reject when `updatedFrom?.stateId` is falsy; reject when
a team filter is configured (`cfg.teamId` truthy) and `data?.teamId`
differs from it. -/
def passesFilters (cfg : PluginConfig) (p : WebhookPayload) : Bool :=
  if p.type != some "Issue" || p.action != some "update" then false
  else if !truthyStr (p.updatedFrom.bind UpdatedFrom.stateId) then false
  else if cfg.teamId != "" && p.data.bind IssueData.teamId != some cfg.teamId
    then false
  else true

/-- The post-parse processing of a push payload (lines 185-231), ledger
effect only: filters, then on `newStateId === IN_DEV_STATE_ID` the
trigger admission via `writeTrigger`; everything else (event logging to
a separate file, logger output) has no ledger effect. -/
def processPayload (cfg : PluginConfig) (now : String)
    (led : List TriggerEntry) (p : WebhookPayload) : List TriggerEntry :=
  if passesFilters cfg p then
    match newStateIdOf p with
    | some sid =>
        if sid = inDevStateId then
          (writeTrigger led
            ⟨issueIdOf p, issueTitleOf p, sid, now, "webhook",
              extractStoryFilePath (p.data.bind IssueData.description)⟩).2
        else led
    | none => led
  else led

/-- The `try { await sessions?.spawn(...) } catch (spawnErr) { log }`
blocks (lines 234-246 and 311-323): any outcome of the dispatch call —
success or raised exception — is absorbed; only a log line differs. -/
def trySpawn (r : Except Unit Unit) : Except Unit Unit :=
  match r with
  | Except.ok _ => Except.ok ()
  | Except.error _ => Except.ok ()

/-- The push processing including the direct-dispatch attempt, in an
exception-aware semantics: `dispatch` is the external
`sessions?.spawn` call, which may succeed or throw.  In the webhook
path the spawn attempt runs whether or not the trigger was written
(lines 227-246). -/
def processPayloadSpawn (dispatch : TriggerInput → Except Unit Unit)
    (cfg : PluginConfig) (now : String)
    (led : List TriggerEntry) (p : WebhookPayload) :
    Except Unit (List TriggerEntry) :=
  if passesFilters cfg p then
    match newStateIdOf p with
    | some sid =>
        if sid = inDevStateId then
          let inp : TriggerInput :=
            ⟨issueIdOf p, issueTitleOf p, sid, now, "webhook",
              extractStoryFilePath (p.data.bind IssueData.description)⟩
          let w := writeTrigger led inp
          match trySpawn (dispatch inp) with
          | Except.ok _ => Except.ok w.2
          | Except.error e => Except.error e
        else Except.ok led
    | none => Except.ok led
  else Except.ok led

/-- An inbound HTTP request to `/webhooks/linear`: method, raw body and
the `x-linear-signature` header (possibly absent). -/
structure WebhookRequest where
  method : String
  body : String
  signature : Option String
deriving DecidableEq, Repr

/-- The webhook HTTP handler (lines 160-251), ledger effect and status
code: `405` on non-POST; `401` when a secret is configured and the
signature fails to verify — the check is `cfg.webhookSecret &&
!verifySignature(...)`, so an empty secret skips verification entirely;
then `200` and asynchronous processing of the parsed body (a JSON parse
failure is caught by the surrounding `catch` and only logged). -/
def handleWebhook (hmacHex : String → String → String)
    (parseJson : String → Option WebhookPayload)
    (cfg : PluginConfig) (now : String)
    (led : List TriggerEntry) (req : WebhookRequest) :
    Nat × List TriggerEntry :=
  if req.method != "POST" then (405, led)
  else if cfg.webhookSecret != "" &&
      !(verifySignature hmacHex req.body (req.signature.getD "")
        cfg.webhookSecret) then
    (401, led)
  else
    match parseJson req.body with
    | none => (200, led)
    | some p => (200, processPayload cfg now led p)

/-- A node of the poll query result (lines 290-295): `identifier` and
`title` are read with plain casts, `state` with `?.`. -/
structure PollIssue where
  identifier : String
  title : String
  description : Option String
  state : Option StateRef
deriving DecidableEq, Repr

/-- The trigger input built by the poll path (lines 297-304). -/
def pollInput (now : String) (i : PollIssue) : TriggerInput :=
  ⟨i.identifier, i.title, inDevStateId, now, "poll",
    extractStoryFilePath i.description⟩

/-- One iteration of the poll loop (lines 290-326), exception-aware:
on an issue in the ready state, admit via `writeTrigger`; if written,
bump the counter and attempt the dispatch inside `try`/`catch`. -/
def pollStep (dispatch : TriggerInput → Except Unit Unit) (now : String)
    (acc : List TriggerEntry × Nat) (issue : PollIssue) :
    Except Unit (List TriggerEntry × Nat) :=
  if issue.state.bind StateRef.id = some inDevStateId then
    let inp := pollInput now issue
    let w := writeTrigger acc.1 inp
    if w.1 then
      match trySpawn (dispatch inp) with
      | Except.ok _ => Except.ok (w.2, acc.2 + 1)
      | Except.error e => Except.error e
    else Except.ok (w.2, acc.2)
  else Except.ok acc

/-- The poll sweep over the fetched issues (the `for` loop), threading
the ledger and the `triggeredCount`. -/
def pollSweep (dispatch : TriggerInput → Except Unit Unit) (now : String)
    (issues : List PollIssue) (led : List TriggerEntry) :
    Except Unit (List TriggerEntry × Nat) :=
  issues.foldlM (pollStep dispatch now) (led, 0)

/-- Dispatch-free reference semantics of one poll iteration. -/
def pollStepPure (now : String) (acc : List TriggerEntry × Nat)
    (issue : PollIssue) : List TriggerEntry × Nat :=
  if issue.state.bind StateRef.id = some inDevStateId then
    let w := writeTrigger acc.1 (pollInput now issue)
    if w.1 then (w.2, acc.2 + 1) else (w.2, acc.2)
  else acc

/-- Dispatch-free reference semantics of the poll sweep. -/
def pollSweepPure (now : String) (issues : List PollIssue)
    (led : List TriggerEntry) : List TriggerEntry × Nat :=
  issues.foldl (pollStepPure now) (led, 0)

/-- C8: a push payload reaches event processing only if the ordered,
short-circuiting filter chain passes: `type` is `"Issue"` and `action`
is `"update"`; `updatedFrom.stateId` is present (truthy); and, when a
team filter is configured, `data.teamId` equals it (no filter
configured passes the rule).  Every failing payload is silently
dropped: the ledger is unchanged and no error is raised (the function
is total). -/
theorem push_admission_filters (cfg : PluginConfig) (now : String)
    (led : List TriggerEntry) (p : WebhookPayload) :
    (passesFilters cfg p = true ↔
      ((p.type = some "Issue" ∧ p.action = some "update") ∧
        truthyStr (p.updatedFrom.bind UpdatedFrom.stateId) = true ∧
        (cfg.teamId = "" ∨ p.data.bind IssueData.teamId = some cfg.teamId))) ∧
    (passesFilters cfg p = false → processPayload cfg now led p = led) := by
  constructor
  · unfold passesFilters
    split_ifs with h1 h2 h3 <;>
      simp_all [Bool.or_eq_true, Bool.and_eq_true, bne_iff_ne,
        Bool.not_eq_true'] <;> tauto
  · intro h
    unfold processPayload
    simp [h]

/-- A payload failing the first filter rule (wrong `action`). -/
def rejectedPayload : WebhookPayload :=
  ⟨some "Issue", some "create", none, some ⟨some "other"⟩⟩

/-- Default configuration: no secret, no team filter. -/
def noSecretCfg : PluginConfig := ⟨"", "", true⟩

/-- Witness for C8: the concrete `action: "create"` payload fails the
filter chain and is dropped with the ledger unchanged. -/
theorem push_admission_filters_witness :
    processPayload noSecretCfg "now" [] rejectedPayload = [] :=
  (push_admission_filters noSecretCfg "now" [] rejectedPayload).2 (by decide)

/-- A payload passing all filters whose new state is the ready state:
`identifier` `CRU-9`, previous state present, no team id. -/
def inDevPayload : WebhookPayload :=
  ⟨some "Issue", some "update",
    some ⟨none, some inDevStateId, none, some "CRU-9", none, some "Demo", none⟩,
    some ⟨some "other-state"⟩⟩

/-- A parse function returning the above payload for any body. -/
def constParse : String → Option WebhookPayload := fun _ => some inDevPayload

/-- A digest function used by concrete webhook scenarios. -/
def constHmac : String → String → String := fun _ _ => "digest"

/-- A POST request carrying a signature that matches nothing. -/
def garbageReq : WebhookRequest := ⟨"POST", "body", some "garbage"⟩

/-- Counterexample to C3: with an empty webhook secret, a push request
with a garbage signature is fully processed and a trigger record is
written via the webhook path — push ingestion is not disabled. -/
theorem webhook_fail_open_counterexample :
    (handleWebhook constHmac constParse noSecretCfg "now" [] garbageReq).2
      = [TriggerInput.withStatus
          ⟨"CRU-9", "Demo", inDevStateId, "now", "webhook", none⟩
          Status.pending] ∧
    (handleWebhook constHmac constParse noSecretCfg "now" [] garbageReq).2
      ≠ [] := by
  constructor
  · rfl
  · decide

/-- C3 (amended): when the configured webhook secret is absent (empty
string), the handler skips signature verification entirely and fails
open: every POST request is answered `200` and processed regardless of
its body or signature header, and trigger records can be written via
the webhook path.  (The poll path is indeed unaffected: it never
consults the secret.) -/
theorem webhook_empty_secret_fail_open (hmacHex : String → String → String)
    (parseJson : String → Option WebhookPayload) (cfg : PluginConfig)
    (now : String) (led : List TriggerEntry) (req : WebhookRequest)
    (hsec : cfg.webhookSecret = "") (hm : req.method = "POST") :
    handleWebhook hmacHex parseJson cfg now led req =
      (200, match parseJson req.body with
            | none => led
            | some p => processPayload cfg now led p) := by
  unfold handleWebhook
  rw [hm, hsec]
  simp only [bne_self_eq_false, Bool.false_eq_true, if_false, Bool.false_and]
  cases parseJson req.body <;> rfl

/-- Witness for C3 (amended): the concrete garbage-signature request
under the empty secret is processed as if no verification existed. -/
theorem webhook_empty_secret_fail_open_witness :
    handleWebhook constHmac constParse noSecretCfg "now" [] garbageReq =
      (200, processPayload noSecretCfg "now" [] inDevPayload) :=
  webhook_empty_secret_fail_open constHmac constParse noSecretCfg "now" []
    garbageReq rfl rfl

lemma trySpawn_eq_ok (r : Except Unit Unit) : trySpawn r = Except.ok () := by
  cases r <;> rfl

lemma pollStep_eq_ok (dispatch : TriggerInput → Except Unit Unit)
    (now : String) (acc : List TriggerEntry × Nat) (issue : PollIssue) :
    pollStep dispatch now acc issue = Except.ok (pollStepPure now acc issue) := by
  unfold pollStep pollStepPure
  by_cases h : issue.state.bind StateRef.id = some inDevStateId
  · rw [if_pos h, if_pos h]
    simp [trySpawn_eq_ok, apply_ite]
  · rw [if_neg h, if_neg h]

lemma foldlM_pollStep (dispatch : TriggerInput → Except Unit Unit)
    (now : String) (issues : List PollIssue) :
    ∀ acc : List TriggerEntry × Nat,
      issues.foldlM (pollStep dispatch now) acc
        = Except.ok (issues.foldl (pollStepPure now) acc) := by
  induction issues with
  | nil => intro acc; rfl
  | cons i rest ih =>
      intro acc
      rw [List.foldlM_cons, pollStep_eq_ok, List.foldl_cons]
      exact ih _

lemma writeTrigger_snd_cases (led : List TriggerEntry) (i : TriggerInput) :
    (writeTrigger led i).2 = led ∨
      (writeTrigger led i).2 = led ++ [i.withStatus Status.pending] := by
  by_cases h :
      led.any (fun e => e.issueId == i.issueId && statusActive e.status) = true
  · left
    simp [writeTrigger, h]
  · right
    simp [writeTrigger, h]

lemma pollStepPure_fst (now : String) (acc : List TriggerEntry × Nat)
    (issue : PollIssue) :
    (pollStepPure now acc issue).1 = acc.1 ∨
      (pollStepPure now acc issue).1
        = (writeTrigger acc.1 (pollInput now issue)).2 := by
  unfold pollStepPure
  by_cases h : issue.state.bind StateRef.id = some inDevStateId
  · right
    rw [if_pos h]
    show (if (writeTrigger acc.1 (pollInput now issue)).1 = true
          then ((writeTrigger acc.1 (pollInput now issue)).2, acc.2 + 1)
          else ((writeTrigger acc.1 (pollInput now issue)).2, acc.2)).1
        = (writeTrigger acc.1 (pollInput now issue)).2
    split <;> rfl
  · left
    rw [if_neg h]

lemma foldl_pollStepPure_mem (now : String) (issues : List PollIssue) :
    ∀ acc : List TriggerEntry × Nat,
      ∀ e ∈ (issues.foldl (pollStepPure now) acc).1,
        e ∈ acc.1 ∨ e.status = Status.pending := by
  induction issues with
  | nil => exact fun acc e he => Or.inl he
  | cons i rest ih =>
      intro acc e he
      rw [List.foldl_cons] at he
      rcases ih (pollStepPure now acc i) e he with h | h
      · rcases pollStepPure_fst now acc i with hf | hf
        · rw [hf] at h
          exact Or.inl h
        · rw [hf] at h
          rcases writeTrigger_snd_cases acc.1 (pollInput now i) with hw | hw
          · rw [hw] at h
            exact Or.inl h
          · rw [hw] at h
            rcases List.mem_append.mp h with h2 | h2
            · exact Or.inl h2
            · right
              simp only [List.mem_singleton] at h2
              subst h2
              rfl
      · exact Or.inr h

lemma processPayload_cases (cfg : PluginConfig) (now : String)
    (led : List TriggerEntry) (p : WebhookPayload) :
    processPayload cfg now led p = led ∨
      ∃ inp : TriggerInput,
        processPayload cfg now led p = (writeTrigger led inp).2 := by
  unfold processPayload
  split
  · split
    · split
      · exact Or.inr ⟨_, rfl⟩
      · exact Or.inl rfl
    · exact Or.inl rfl
  · exact Or.inl rfl

lemma processPayload_mem (cfg : PluginConfig) (now : String)
    (led : List TriggerEntry) (p : WebhookPayload) :
    ∀ e ∈ processPayload cfg now led p, e ∈ led ∨ e.status = Status.pending := by
  intro e he
  rcases processPayload_cases cfg now led p with h | ⟨inp, h⟩
  · rw [h] at he
    exact Or.inl he
  · rw [h] at he
    rcases writeTrigger_snd_cases led inp with hw | hw
    · rw [hw] at he
      exact Or.inl he
    · rw [hw] at he
      rcases List.mem_append.mp he with h2 | h2
      · exact Or.inl h2
      · right
        simp only [List.mem_singleton] at h2
        subst h2
        rfl

lemma processPayloadSpawn_eq_ok (dispatch : TriggerInput → Except Unit Unit)
    (cfg : PluginConfig) (now : String) (led : List TriggerEntry)
    (p : WebhookPayload) :
    processPayloadSpawn dispatch cfg now led p
      = Except.ok (processPayload cfg now led p) := by
  unfold processPayloadSpawn processPayload
  split
  · split
    · split
      · simp [trySpawn_eq_ok]
      · rfl
    · rfl
  · rfl

/-- C7: dispatch failures are caught and swallowed.  The exception-aware
semantics of a poll sweep equals `ok` of the dispatch-free reference
semantics for every dispatch behaviour (so a raised dispatch exception
neither aborts the sweep nor changes the ledger, and the remaining
issues of the sweep are still processed); every record the sweep adds
has status `pending` (the failure never changes a record's status); and
likewise the webhook processing with dispatch equals `ok` of its
dispatch-free ledger semantics. -/
theorem dispatch_failure_swallowed (dispatch : TriggerInput → Except Unit Unit)
    (now : String) (issues : List PollIssue) (led : List TriggerEntry)
    (cfg : PluginConfig) (p : WebhookPayload) :
    pollSweep dispatch now issues led
        = Except.ok (pollSweepPure now issues led) ∧
      (∀ e ∈ (pollSweepPure now issues led).1,
        e ∈ led ∨ e.status = Status.pending) ∧
      processPayloadSpawn dispatch cfg now led p
        = Except.ok (processPayload cfg now led p) :=
  ⟨foldlM_pollStep dispatch now issues (led, 0),
    fun e he => foldl_pollStepPure_mem now issues (led, 0) e he,
    processPayloadSpawn_eq_ok dispatch cfg now led p⟩

/-- A poll result node currently in the ready state. -/
def pollIssue1 : PollIssue :=
  ⟨"CRU-7", "Poll demo", none, some ⟨some inDevStateId⟩⟩

/-- A dispatch that always raises. -/
def failDispatch : TriggerInput → Except Unit Unit := fun _ => Except.error ()

/-- The record the poll path admits for `pollIssue1`. -/
def pollEntry1 : TriggerEntry :=
  ⟨"CRU-7", "Poll demo", inDevStateId, "now", "poll", Status.pending, none⟩

/-- Witness for C7: a sweep over one ready issue with an always-failing
dispatch completes with the dispatch-free result, and the admitted
record is `pending`. -/
theorem dispatch_failure_swallowed_witness :
    pollSweep failDispatch "now" [pollIssue1] []
        = Except.ok (pollSweepPure "now" [pollIssue1] []) ∧
      (pollEntry1 ∈ ([] : List TriggerEntry)
        ∨ pollEntry1.status = Status.pending) := by
  have h := dispatch_failure_swallowed failDispatch "now" [pollIssue1] []
    noSecretCfg inDevPayload
  exact ⟨h.1, h.2.1 pollEntry1 (by decide)⟩

/-- Counterexample to C4: a sweep whose dispatch succeeds leaves the
admitted record `pending` — the `pending → spawned` completion
transition is never recorded by the code. -/
theorem completion_not_recorded_counterexample :
    pollSweep (fun _ => Except.ok ()) "now" [pollIssue1] []
        = Except.ok ([pollEntry1], 1) ∧
      pollEntry1.status = Status.pending ∧
      Status.pending ≠ Status.spawned := by
  refine ⟨rfl, rfl, by decide⟩

/-- C4 (amended): after a dispatch attempt the coordinator deems
successful, the record's status is unchanged: the code never writes a
`spawned` status.  Every record added by a poll sweep whose dispatches
all succeed, and every record added by webhook processing, has status
`pending`; `pending → spawned` arises only from out-of-band edits of
the ledger file. -/
theorem no_completion_transition (now : String) (issues : List PollIssue)
    (led : List TriggerEntry) (cfg : PluginConfig) (p : WebhookPayload) :
    pollSweep (fun _ => Except.ok ()) now issues led
        = Except.ok (pollSweepPure now issues led) ∧
      (∀ e ∈ (pollSweepPure now issues led).1,
        e ∉ led → e.status = Status.pending) ∧
      (∀ e ∈ processPayload cfg now led p,
        e ∉ led → e.status = Status.pending) := by
  refine ⟨foldlM_pollStep _ now issues (led, 0), ?_, ?_⟩
  · intro e he hn
    rcases foldl_pollStepPure_mem now issues (led, 0) e he with h | h
    · exact absurd h hn
    · exact h
  · intro e he hn
    rcases processPayload_mem cfg now led p e he with h | h
    · exact absurd h hn
    · exact h

/-- Witness for C4 (amended): the concrete record admitted by a sweep
with an always-succeeding dispatch has status `pending`. -/
theorem no_completion_transition_witness :
    pollSweep (fun _ => Except.ok ()) "now" [pollIssue1] []
        = Except.ok (pollSweepPure "now" [pollIssue1] []) ∧
      pollEntry1.status = Status.pending := by
  have h := no_completion_transition "now" [pollIssue1] [] noSecretCfg
    inDevPayload
  exact ⟨h.1, h.2.1 pollEntry1 (by decide) (by decide)⟩

lemma issueIdOf_unknown (p : WebhookPayload)
    (h1 : p.data.bind IssueData.identifier = none)
    (h2 : p.data.bind IssueData.id = none) : issueIdOf p = "unknown" := by
  unfold issueIdOf
  rw [h1, h2]
  rfl

lemma processPayload_ready (cfg : PluginConfig) (now : String)
    (led : List TriggerEntry) (p : WebhookPayload)
    (hpf : passesFilters cfg p = true)
    (hps : newStateIdOf p = some inDevStateId) :
    processPayload cfg now led p =
      (writeTrigger led
        ⟨issueIdOf p, issueTitleOf p, inDevStateId, now, "webhook",
          extractStoryFilePath (p.data.bind IssueData.description)⟩).2 := by
  unfold processPayload
  rw [if_pos hpf, hps]
  show (if inDevStateId = inDevStateId then
        (writeTrigger led
          ⟨issueIdOf p, issueTitleOf p, inDevStateId, now, "webhook",
            extractStoryFilePath (p.data.bind IssueData.description)⟩).2
      else led) = _
  rw [if_pos rfl]

/-- C10: a push payload that passes the filters and targets the ready
state but carries neither `data.identifier` nor `data.id` is admitted
under the literal issue id `"unknown"`; while that record is active,
any later identifier-less payload — even one describing a different
work item — is deduplicated against it and writes nothing. -/
theorem unknown_issueId_dedup (cfg : PluginConfig) (led : List TriggerEntry)
    (now now2 : String) (p q : WebhookPayload)
    (hpf : passesFilters cfg p = true)
    (hps : newStateIdOf p = some inDevStateId)
    (hpi1 : p.data.bind IssueData.identifier = none)
    (hpi2 : p.data.bind IssueData.id = none)
    (hled : activeCount led "unknown" = 0)
    (hqf : passesFilters cfg q = true)
    (hqs : newStateIdOf q = some inDevStateId)
    (hqi1 : q.data.bind IssueData.identifier = none)
    (hqi2 : q.data.bind IssueData.id = none) :
    processPayload cfg now led p
        = led ++ [TriggerInput.withStatus
            ⟨"unknown", issueTitleOf p, inDevStateId, now, "webhook",
              extractStoryFilePath (p.data.bind IssueData.description)⟩
            Status.pending] ∧
      processPayload cfg now2 (processPayload cfg now led p) q
        = processPayload cfg now led p := by
  have hpid := issueIdOf_unknown p hpi1 hpi2
  have hqid := issueIdOf_unknown q hqi1 hqi2
  have hex : led.any
      (fun e => e.issueId == "unknown" && statusActive e.status) = false :=
    (alreadyExists_eq_false_iff led "unknown").mpr hled
  have h1 : processPayload cfg now led p
      = led ++ [TriggerInput.withStatus
          ⟨"unknown", issueTitleOf p, inDevStateId, now, "webhook",
            extractStoryFilePath (p.data.bind IssueData.description)⟩
          Status.pending] := by
    rw [processPayload_ready cfg now led p hpf hps, hpid]
    simp [writeTrigger, hex]
  refine ⟨h1, ?_⟩
  rw [h1, processPayload_ready cfg now2 _ q hqf hqs, hqid]
  have hex2 : (led ++ [TriggerInput.withStatus
      ⟨"unknown", issueTitleOf p, inDevStateId, now, "webhook",
        extractStoryFilePath (p.data.bind IssueData.description)⟩
      Status.pending]).any
      (fun e => e.issueId == "unknown" && statusActive e.status) = true := by
    apply List.any_eq_true.mpr
    refine ⟨_, List.mem_append_right led (List.mem_singleton.mpr rfl), rfl⟩
  simp [writeTrigger, hex2]

/-- An identifier-less payload in the ready state, first work item. -/
def unknownPayload1 : WebhookPayload :=
  ⟨some "Issue", some "update",
    some ⟨none, some inDevStateId, none, none, none, some "First item", none⟩,
    some ⟨some "prev-state"⟩⟩

/-- An identifier-less payload in the ready state, a different work
item. -/
def unknownPayload2 : WebhookPayload :=
  ⟨some "Issue", some "update",
    some ⟨none, some inDevStateId, none, none, none, some "Second item", none⟩,
    some ⟨some "prev-state"⟩⟩

/-- Witness for C10: the first identifier-less payload admits an
`unknown` record on the empty ledger; the second identifier-less
payload (a different work item) is then deduplicated against it. -/
theorem unknown_issueId_dedup_witness :
    processPayload noSecretCfg "t1" [] unknownPayload1
        = [] ++ [TriggerInput.withStatus
            ⟨"unknown", issueTitleOf unknownPayload1, inDevStateId, "t1",
              "webhook", extractStoryFilePath
                (unknownPayload1.data.bind IssueData.description)⟩
            Status.pending] ∧
      processPayload noSecretCfg "t2"
          (processPayload noSecretCfg "t1" [] unknownPayload1) unknownPayload2
        = processPayload noSecretCfg "t1" [] unknownPayload1 :=
  unknown_issueId_dedup noSecretCfg [] "t1" "t2" unknownPayload1
    unknownPayload2 (by decide) (by decide) (by decide) (by decide)
    (by decide) (by decide) (by decide) (by decide) (by decide)
